import Mathlib

/-!
# TaskFlow job manager — verification of its specification

A shallow embedding of `src/app.js` (the single source file of the
repository): the job record, the IndexedDB-backed store wrapper `db`,
the `AppState` global, the render pipeline (`renderCurrentView`,
`renderKanban`, `renderList`, `renderRecentActivity`, `updateStats`)
and the event handlers (`handleSaveJob`, the delete button handler, the
kanban drop handler, the search input handler).  DOM construction is
abstracted to the data each view displays; everything else follows the
JavaScript line by line.
-/

namespace TaskFlow

/-- The job record, the sole entity (`handleSaveJob` constructs exactly
these fields). -/
structure Job where
  id : String
  title : String
  desc : String
  status : String
  priority : String
  dueDate : String
  tags : List String
  updatedAt : String
deriving DecidableEq, Repr

/-- The mutable global `AppState` (`darkMode` only drives CSS classes and
is carried along untouched). -/
structure AppState where
  jobs : List Job
  view : String
  filter : String
  darkMode : Bool
deriving DecidableEq, Repr

/-! ## The IndexedDB wrapper `db`

The object store holds job records keyed by `id` (`keyPath: 'id'`), so a
real store never holds two records with the same `id`.  We model its
contents as a `List Job`.  The real `getAll` enumerates records in key
order; we keep insertion order instead — every theorem below either
re-sorts the result or is order-independent, so the enumeration order is
immaterial. -/

/-- `db.getAllJobs()`: returns every stored record. -/
def getAllJobs (store : List Job) : List Job := store

/-- `db.addJob(job)`: `store.put(job)` — replaces the record sharing the
key `job.id` when present, otherwise adds the record.  (On a store with
duplicate `id`s the `map` would replace all of them, but the `keyPath`
store cannot hold duplicates.) -/
def addJob (store : List Job) (j : Job) : List Job :=
  if store.any (fun r => r.id == j.id)
  then store.map (fun r => if r.id == j.id then j else r)
  else store ++ [j]

/-- `db.deleteJob(id)`: `store.delete(id)` — removes the record with that
key; a missing key is a successful no-op. -/
def deleteJob (store : List Job) (jid : String) : List Job :=
  store.filter (fun r => r.id != jid)

/-! ## Due-date parsing and the load-time sort

`loadJobs` sorts with the comparator `new Date(a.dueDate) - new
Date(b.dueDate)`.  The form's date input produces `YYYY-MM-DD` strings
(or the empty string); `new Date` on such a string yields an epoch value
whose ordering and equality agree with the ordering and equality of the
`(year, month, day)` triple, and an invalid date otherwise.  `parseDate`
returns a key that is order- and equality-isomorphic to that epoch value
(`none` for an invalid date). -/

/-- Numeric value of a decimal digit character. -/
def digitVal (c : Char) : Nat := c.toNat - 48

/-- Key of `new Date(s)` for the `YYYY-MM-DD` strings the date input
produces: `some` of an order-isomorphic key for a valid date, `none` for
an invalid one. -/
def parseDate (s : String) : Option Nat :=
  match s.data with
  | [y1, y2, y3, y4, h1, m1, m2, h2, d1, d2] =>
    if y1.isDigit && y2.isDigit && y3.isDigit && y4.isDigit && h1 == '-' &&
        m1.isDigit && m2.isDigit && h2 == '-' && d1.isDigit && d2.isDigit then
      let y := ((digitVal y1 * 10 + digitVal y2) * 10 + digitVal y3) * 10 + digitVal y4
      let m := digitVal m1 * 10 + digitVal m2
      let d := digitVal d1 * 10 + digitVal d2
      if 1 ≤ m ∧ m ≤ 12 ∧ 1 ≤ d ∧ d ≤ 31 then some ((y * 100 + m) * 100 + d)
      else none
    else none
  | _ => none

/-- The sort key actually compared, with `0` standing in for an invalid
date (the branch the claims leave unspecified). -/
def dueKey (j : Job) : Nat := (parseDate j.dueDate).getD 0

/-- The sort comparator `new Date(a.dueDate) - new Date(b.dueDate)`.
When either date is invalid the subtraction is `NaN`, and
`Array.prototype.sort` treats a `NaN` comparator result as `0`. -/
def dateCmp (a b : Job) : Int :=
  match parseDate a.dueDate, parseDate b.dueDate with
  | some x, some y => (x : Int) - y
  | _, _ => 0

/-- Stable insertion step for the due-date sort: `j` goes in front of the
first element it compares `≤ 0` against. -/
def sortInsert (j : Job) : List Job → List Job
  | [] => [j]
  | r :: rs => if dateCmp j r ≤ 0 then j :: r :: rs else r :: sortInsert j rs

/-- `AppState.jobs.sort((a, b) => new Date(a.dueDate) - new Date(b.dueDate))`.
`Array.prototype.sort` is stable (ES2019), and for a consistent
comparator the stable sorted result is unique, so a stable insertion
sort computes it.  (When invalid dates make the comparator inconsistent
the engine's order is implementation-defined; the claims leave that case
unspecified, and the theorems below only use that the result is a
permutation there.) -/
def sortByDueDate : List Job → List Job
  | [] => []
  | j :: js => sortInsert j (sortByDueDate js)

/-- `loadJobs()`: replaces `AppState.jobs` with the store contents sorted
by due date. -/
def loadJobs (store : List Job) : List Job :=
  sortByDueDate (getAllJobs store)

/-! ## The search filter -/

/-- `String.prototype.toLowerCase` (the source only ever lowercases the
ASCII field contents and queries, where `Char.toLower` agrees with it). -/
def jsToLower (s : String) : String := ⟨s.data.map Char.toLower⟩

/-- Does the character list start with the pattern? -/
def startsWithChars : List Char → List Char → Bool
  | _, [] => true
  | [], _ :: _ => false
  | c :: cs, d :: ds => c == d && startsWithChars cs ds

/-- Does the pattern occur as a contiguous run of the character list? -/
def containsChars : List Char → List Char → Bool
  | [], q => q.isEmpty
  | c :: cs, q => startsWithChars (c :: cs) q || containsChars cs q

/-- `String.prototype.includes`: `jsIncludes s q` is `s.includes(q)`. -/
def jsIncludes (s q : String) : Bool := containsChars s.data q.data

/-- The filter predicate inside `renderCurrentView`:
`if (!query) return true; return job.title.toLowerCase().includes(query)
|| job.tags.some(t => t.toLowerCase().includes(query));` —
`query` is `AppState.filter`, already lowercased by the input handler. -/
def jobMatches (query : String) (j : Job) : Bool :=
  if query = "" then true
  else jsIncludes (jsToLower j.title) query
    || j.tags.any (fun t => jsIncludes (jsToLower t) query)

/-- `const filteredJobs = AppState.jobs.filter(...)` at the top of
`renderCurrentView`. -/
def filteredJobs (st : AppState) : List Job :=
  st.jobs.filter (jobMatches st.filter)

/-- The search input handler:
`AppState.filter = e.target.value.toLowerCase();` (the re-render it then
triggers is the pure `renderCurrentView` below). -/
def searchInput (raw : String) (st : AppState) : AppState :=
  { st with filter := jsToLower raw }

/-! ## The three views and the summary statistics

Each render function is modelled by the data it writes into the DOM. -/

/-- One row of the list view's table (the fields `renderList` prints). -/
structure ListRow where
  title : String
  status : String
  priority : String
  dueDate : String
deriving DecidableEq, Repr

/-- The row `renderList` builds for one job. -/
def jobRow (j : Job) : ListRow :=
  { title := j.title, status := j.status, priority := j.priority, dueDate := j.dueDate }

/-- `renderList(jobs)`: one table row per job, in order. -/
def renderList (jobs : List Job) : List ListRow := jobs.map jobRow

/-- What the dashboard's recent-activity panel shows: the empty-state
message, or one entry per shown job. -/
inductive Dashboard where
  | emptyState
  | items (shown : List Job)
deriving DecidableEq, Repr

/-- `renderRecentActivity(jobs)`: the empty state when `jobs.length === 0`,
otherwise one entry for each job of `jobs.slice(0, 5)`. -/
def renderRecentActivity (jobs : List Job) : Dashboard :=
  if jobs.length = 0 then Dashboard.emptyState else Dashboard.items (jobs.take 5)

/-- The kanban board: the four columns' card lists and the four displayed
header counts (accumulated separately, exactly as the code keeps a
`counts` object next to the DOM appends). -/
structure KanbanBoard where
  colTodo : List Job
  colInProgress : List Job
  colReview : List Job
  colDone : List Job
  countTodo : Nat
  countInProgress : Nat
  countReview : Nat
  countDone : Nat
deriving DecidableEq, Repr

/-- The empty board (`innerHTML = ''` on the four columns, counts reset
to zero). -/
def emptyBoard : KanbanBoard :=
  { colTodo := [], colInProgress := [], colReview := [], colDone := []
    countTodo := 0, countInProgress := 0, countReview := 0, countDone := 0 }

/-- String-keyed properties every plain object inherits from
`Object.prototype`.  The guard in `renderKanban` is
`if (columns[job.status])` on the object literal `columns`; for these
keys the lookup finds the inherited member — a function (or, for
`__proto__`, an object) and hence truthy — even though it is not one of
the four columns. -/
def objectProtoProps : List String :=
  ["constructor", "hasOwnProperty", "isPrototypeOf", "propertyIsEnumerable",
   "toLocaleString", "toString", "valueOf", "__defineGetter__", "__defineSetter__",
   "__lookupGetter__", "__lookupSetter__", "__proto__"]

/-- One iteration of `jobs.forEach` in `renderKanban`: a job whose status
names a column is appended to it and counted; a job whose status names an
inherited `Object.prototype` member passes the truthiness guard and then
`columns[job.status].appendChild(card)` throws, aborting the render; any
other status fails the guard and is skipped. -/
def kanbanStep (b : KanbanBoard) (j : Job) : Except String KanbanBoard :=
  if j.status == "todo" then
    Except.ok { b with colTodo := b.colTodo ++ [j], countTodo := b.countTodo + 1 }
  else if j.status == "in-progress" then
    Except.ok { b with colInProgress := b.colInProgress ++ [j],
                       countInProgress := b.countInProgress + 1 }
  else if j.status == "review" then
    Except.ok { b with colReview := b.colReview ++ [j], countReview := b.countReview + 1 }
  else if j.status == "done" then
    Except.ok { b with colDone := b.colDone ++ [j], countDone := b.countDone + 1 }
  else if objectProtoProps.contains j.status then
    Except.error "TypeError: columns[job.status].appendChild is not a function"
  else
    Except.ok b

/-- `renderKanban(jobs)`: clear the four columns, walk the jobs, then
write the four counts into the column headers. -/
def renderKanban (jobs : List Job) : Except String KanbanBoard :=
  jobs.foldlM kanbanStep emptyBoard

/-- The four summary numbers `updateStats` writes. -/
structure Stats where
  total : Nat
  active : Nat
  completed : Nat
  pending : Nat
deriving DecidableEq, Repr

/-- `updateStats()`: computed from the full `AppState.jobs`, never from
the filtered list. -/
def updateStats (jobs : List Job) : Stats :=
  { total := jobs.length
    active := (jobs.filter (fun j => j.status == "in-progress")).length
    completed := (jobs.filter (fun j => j.status == "done")).length
    pending := (jobs.filter (fun j => j.status == "todo" || j.status == "review")).length }

/-- The active view's rendered output. -/
inductive RenderedView where
  | dashboard (d : Dashboard)
  | kanban (k : Except String KanbanBoard)
  | listView (rows : List ListRow)
  | noView
deriving Repr

/-- `renderCurrentView()`: filter, dispatch on `AppState.view`, then
`updateStats()` over the unfiltered `AppState.jobs`. -/
def renderCurrentView (st : AppState) : RenderedView × Stats :=
  let fj := filteredJobs st
  ( if st.view = "dashboard" then RenderedView.dashboard (renderRecentActivity fj)
    else if st.view = "kanban" then RenderedView.kanban (renderKanban fj)
    else if st.view = "list" then RenderedView.listView (renderList fj)
    else RenderedView.noView
  , updateStats st.jobs )

/-! ## Event handlers

Each handler is a function of the current `AppState` and store contents,
returning the new state, the new store contents, and the trace of store
operations it performed (a `put`, a `del`, or a full `reload` via
`loadJobs`). -/

/-- A store round-trip performed by a handler. -/
inductive StoreEvent where
  | put (j : Job)
  | del (jid : String)
  | reload
deriving DecidableEq, Repr

/-- The values read from the job form when it is submitted, all raw
strings (`tags` is the comma-separated input). -/
structure JobForm where
  id : String
  title : String
  desc : String
  status : String
  priority : String
  dueDate : String
  tags : String
deriving DecidableEq, Repr

/-- `tagsInput.split(',').map(t => t.trim()).filter(t => t)`. -/
def parseTags (s : String) : List String :=
  ((s.splitOn ",").map String.trim).filter (fun t => !(t = ""))

/-- `handleSaveJob()`: build the record (`job-id` empty means a fresh
`crypto.randomUUID()`, here the parameter `freshId`; `updatedAt` is
`new Date().toISOString()`, here the parameter `now`), `db.addJob`,
`loadJobs`, re-render (pure), close the modal. -/
def handleSaveJob (form : JobForm) (freshId now : String)
    (st : AppState) (store : List Job) :
    AppState × List Job × List StoreEvent :=
  let jid := if form.id = "" then freshId else form.id
  let job : Job :=
    { id := jid, title := form.title, desc := form.desc, status := form.status,
      priority := form.priority, dueDate := form.dueDate,
      tags := parseTags form.tags, updatedAt := now }
  let store1 := addJob store job
  ({ st with jobs := loadJobs store1 }, store1, [StoreEvent.put job, StoreEvent.reload])

/-- Modelled from the spec: the job form lives in `index.html`, which is
not part of `src/`; per the spec ("validate required fields are
non-empty", "`title`: short display string, required") a submission with
an empty required field is blocked before the submit handler runs, so no
record is constructed and nothing is written.  A passing submission runs
`handleSaveJob` (src/app.js line 137). -/
def submitJobForm (form : JobForm) (freshId now : String)
    (st : AppState) (store : List Job) :
    AppState × List Job × List StoreEvent :=
  if form.title = "" then (st, store, [])
  else handleSaveJob form freshId now st store

/-- The card's delete-button handler after the confirmation is accepted:
`db.deleteJob(job.id)`, `loadJobs()`, re-render (pure). -/
def deleteHandler (jid : String) (st : AppState) (store : List Job) :
    AppState × List Job × List StoreEvent :=
  let store1 := deleteJob store jid
  ({ st with jobs := loadJobs store1 }, store1, [StoreEvent.del jid, StoreEvent.reload])

/-- The kanban column drop handler: `jobId` is the drag payload, `ns` the
column's `data-status`.  `const jobIndex = AppState.jobs.findIndex(j =>
j.id === jobId); if (jobIndex > -1 && AppState.jobs[jobIndex].status !==
newStatus) { AppState.jobs[jobIndex].status = newStatus; await
db.addJob(AppState.jobs[jobIndex]); renderCurrentView(); }` — note the
in-place mutation and the absence of a `loadJobs` call. -/
def dropHandler (jobId ns : String) (st : AppState) (store : List Job) :
    AppState × List Job × List StoreEvent :=
  match st.jobs.findIdx? (fun x => x.id == jobId) with
  | none => (st, store, [])
  | some i =>
    match st.jobs[i]? with
    | none => (st, store, [])
    | some j =>
      if j.status == ns then (st, store, [])
      else
        let j1 := { j with status := ns }
        ({ st with jobs := st.jobs.set i j1 }, addJob store j1, [StoreEvent.put j1])

/-! ## The filter predicate as the specification words it

For the refinement comparison in C1: the spec's set
`\x7b j ∈ J : q = "" ∨ q ⊆ lower(j.title) ∨ ∃ t ∈ j.tags, q ⊆ lower(t) \x7d`
with the comparison case-insensitive in both query and fields, i.e. the
query lowercased as well. -/

/-- The claimed filter predicate, written from the specification text
(not from the code): empty query, or the lowercased title contains the
lowercased query, or some lowercased tag does. -/
def claimMatches (q : String) (j : Job) : Bool :=
  if q = "" then true
  else jsIncludes (jsToLower j.title) (jsToLower q)
    || j.tags.any (fun t => jsIncludes (jsToLower t) (jsToLower q))

/-! ## Helper lemmas -/

theorem sortInsert_perm (j : Job) : ∀ l : List Job, (sortInsert j l).Perm (j :: l)
  | [] => List.Perm.refl _
  | r :: rs => by
    unfold sortInsert
    by_cases h : dateCmp j r ≤ 0
    · rw [if_pos h]
    · rw [if_neg h]
      exact ((sortInsert_perm j rs).cons r).trans (List.Perm.swap j r rs)

theorem sortByDueDate_perm : ∀ l : List Job, (sortByDueDate l).Perm l
  | [] => List.Perm.refl _
  | j :: js =>
    (sortInsert_perm j (sortByDueDate js)).trans ((sortByDueDate_perm js).cons j)

theorem loadJobs_perm (store : List Job) : (loadJobs store).Perm store :=
  sortByDueDate_perm store

theorem dateCmp_le_iff {a b : Job} (ha : (parseDate a.dueDate).isSome)
    (hb : (parseDate b.dueDate).isSome) :
    dateCmp a b ≤ 0 ↔ dueKey a ≤ dueKey b := by
  obtain ⟨x, hx⟩ := Option.isSome_iff_exists.mp ha
  obtain ⟨y, hy⟩ := Option.isSome_iff_exists.mp hb
  simp only [dateCmp, dueKey, hx, hy, Option.getD_some]
  omega

theorem sortInsert_pairwise {j : Job} : ∀ {l : List Job},
    (∀ x ∈ j :: l, (parseDate x.dueDate).isSome) →
    l.Pairwise (fun a b => dueKey a ≤ dueKey b) →
    (sortInsert j l).Pairwise (fun a b => dueKey a ≤ dueKey b)
  | [], _, _ => List.pairwise_singleton _ j
  | r :: rs, hv, hp => by
    have hvj : (parseDate j.dueDate).isSome := hv j (List.mem_cons_self j _)
    have hvr : (parseDate r.dueDate).isSome :=
      hv r (List.mem_cons_of_mem j (List.mem_cons_self r rs))
    unfold sortInsert
    by_cases h : dateCmp j r ≤ 0
    · rw [if_pos h]
      have hjr : dueKey j ≤ dueKey r := (dateCmp_le_iff hvj hvr).mp h
      refine List.Pairwise.cons ?_ hp
      intro x hx
      rcases List.mem_cons.mp hx with hx | hx
      · exact hx ▸ hjr
      · exact le_trans hjr ((List.pairwise_cons.mp hp).1 x hx)
    · rw [if_neg h]
      have hrj : dueKey r ≤ dueKey j := by
        rcases le_total (dueKey r) (dueKey j) with h' | h'
        · exact h'
        · exact absurd ((dateCmp_le_iff hvj hvr).mpr h') h
      refine List.Pairwise.cons ?_ ?_
      · intro x hx
        rcases List.mem_cons.mp ((sortInsert_perm j rs).mem_iff.mp hx) with hx | hx
        · exact hx ▸ hrj
        · exact (List.pairwise_cons.mp hp).1 x hx
      · exact sortInsert_pairwise
          (fun x hx => by
            rcases List.mem_cons.mp hx with hx | hx
            · exact hx ▸ hvj
            · exact hv x (List.mem_cons_of_mem j (List.mem_cons_of_mem r hx)))
          (List.pairwise_cons.mp hp).2

theorem sortByDueDate_pairwise : ∀ {l : List Job},
    (∀ x ∈ l, (parseDate x.dueDate).isSome) →
    (sortByDueDate l).Pairwise (fun a b => dueKey a ≤ dueKey b)
  | [], _ => List.Pairwise.nil
  | j :: js, hv => by
    unfold sortByDueDate
    refine sortInsert_pairwise ?_
      (sortByDueDate_pairwise (fun x hx => hv x (List.mem_cons_of_mem j hx)))
    intro x hx
    rcases List.mem_cons.mp hx with hx | hx
    · exact hx ▸ hv j (List.mem_cons_self j js)
    · exact hv x (List.mem_cons_of_mem j ((sortByDueDate_perm js).mem_iff.mp hx))

theorem jsToLower_eq_empty {s : String} : jsToLower s = "" ↔ s = "" := by
  rw [String.ext_iff, String.ext_iff]
  show s.data.map Char.toLower = [] ↔ s.data = []
  simp

theorem map_replace_eq_self {l : List Job} {jid : String} {j1 : Job}
    (h : ∀ x ∈ l, x.id ≠ jid) :
    l.map (fun r => if r.id == jid then j1 else r) = l := by
  induction l with
  | nil => rfl
  | cons a t ih =>
    simp only [List.map_cons]
    rw [if_neg (by simp [h a (List.mem_cons_self a t)]),
      ih (fun x hx => h x (List.mem_cons_of_mem a hx))]

theorem set_eq_map_replace {l : List Job} {jid : String} {i : Nat} {j1 : Job}
    (hnd : (l.map Job.id).Nodup)
    (hfind : l.findIdx? (fun x => x.id == jid) = some i) :
    l.set i j1 = l.map (fun r => if r.id == jid then j1 else r) := by
  obtain ⟨hlen, hp, hmin⟩ := List.findIdx?_eq_some_iff_getElem.mp hfind
  apply List.ext_getElem?
  intro n
  by_cases hn : i = n
  · subst hn
    rw [List.getElem?_set_self hlen, List.getElem?_map, List.getElem?_eq_getElem hlen]
    simp only [Option.map_some']
    rw [if_pos hp]
  · rw [List.getElem?_set_ne hn, List.getElem?_map]
    by_cases hlt : n < l.length
    · have hne : (l.get ⟨n, hlt⟩).id ≠ jid := by
        rcases Nat.lt_or_ge n i with hni | hni
        · have := hmin n hni
          simpa using this
        · intro hc
          have hleni : i < (l.map Job.id).length := by simpa using hlen
          have hlenn : n < (l.map Job.id).length := by simpa using hlt
          have hmm : (l.map Job.id)[i] = (l.map Job.id)[n] := by
            rw [List.getElem_map, List.getElem_map]
            have hi_id : (l.get ⟨i, hlen⟩).id = jid := by simpa using hp
            show (l.get ⟨i, hlen⟩).id = (l.get ⟨n, hlt⟩).id
            rw [hi_id, hc]
          exact hn ((List.Nodup.getElem_inj_iff hnd).mp hmm)
      rw [List.getElem?_eq_getElem hlt]
      simp only [Option.map_some']
      rw [if_neg (by simpa using hne)]
    · simp [List.getElem?_eq_none (Nat.le_of_not_lt hlt)]

theorem addJob_eq_map_replace {store : List Job} {j1 : Job}
    (h : ∃ r ∈ store, r.id = j1.id) :
    addJob store j1 = store.map (fun r => if r.id == j1.id then j1 else r) := by
  unfold addJob
  obtain ⟨r, hr, hid⟩ := h
  have hany : (store.any fun r => r.id == j1.id) = true :=
    List.any_eq_true.mpr ⟨r, hr, beq_iff_eq.mpr hid⟩
  rw [if_pos hany]

theorem dropHandler_perm {jobId ns : String} {st : AppState} {store : List Job}
    (hperm : st.jobs.Perm store) (hnd : (store.map Job.id).Nodup) :
    ((dropHandler jobId ns st store).1.jobs).Perm (dropHandler jobId ns st store).2.1 := by
  rcases hfind : st.jobs.findIdx? (fun x => x.id == jobId) with _ | i
  · simp only [dropHandler, hfind]
    exact hperm
  · rcases hget : st.jobs[i]? with _ | j
    · simp only [dropHandler, hfind, hget]
      exact hperm
    · by_cases hs : (j.status == ns) = true
      · simp only [dropHandler, hfind, hget, if_pos hs]
        exact hperm
      · simp only [dropHandler, hfind, hget, if_neg hs]
        have hndj : (st.jobs.map Job.id).Nodup := (hperm.map Job.id).nodup_iff.mpr hnd
        have hjid : j.id = jobId := by
          obtain ⟨hlen, hp, -⟩ := List.findIdx?_eq_some_iff_getElem.mp hfind
          obtain ⟨hlen2, hj⟩ := List.getElem?_eq_some_iff.mp hget
          rw [← hj]
          simpa using hp
        subst hjid
        have hmem : ∃ r ∈ store, r.id = ({ j with status := ns } : Job).id :=
          ⟨j, hperm.mem_iff.mp (List.getElem?_mem hget), rfl⟩
        rw [set_eq_map_replace hndj hfind, addJob_eq_map_replace hmem]
        exact hperm.map _

theorem jobMatches_jsToLower (raw : String) (j : Job) :
    jobMatches (jsToLower raw) j = claimMatches raw j := by
  unfold jobMatches claimMatches
  by_cases h : raw = ""
  · subst h
    rfl
  · rw [if_neg (fun hc => h (jsToLower_eq_empty.mp hc)), if_neg h]

/-! ## Concrete sample data for the witnesses and counterexamples -/

/-- Builder for concrete sample records (`updatedAt` is the stamp an
earlier save would have written). -/
def mkJob (jid ti stat due : String) (tags : List String) : Job :=
  { id := jid, title := ti, desc := "", status := stat, priority := "high",
    dueDate := due, tags := tags, updatedAt := "2024-01-01T00:00:00.000Z" }

/-- A two-record store with valid, out-of-order due dates. -/
def sampleStore : List Job :=
  [mkJob "a" "Draft spec" "todo" "2024-06-02" ["writing"],
   mkJob "b" "Review PR" "in-progress" "2024-06-01" ["code"]]

/-- The state right after a reload from `sampleStore`, dashboard active. -/
def sampleDashState : AppState := ⟨loadJobs sampleStore, "dashboard", "", true⟩

/-- A single job sitting in the todo column. -/
def dropJob : Job := mkJob "a" "Draft spec" "todo" "2024-06-01" ["writing"]

/-- The store holding exactly `dropJob`. -/
def dropStore : List Job := [dropJob]

/-- The kanban view over `dropStore`, consistent with it. -/
def dropState : AppState := ⟨[dropJob], "kanban", "", true⟩

/-- Six jobs that all pass the empty search filter. -/
def sixJobs : List Job :=
  [mkJob "a" "t1" "todo" "2024-06-01" [], mkJob "b" "t2" "todo" "2024-06-02" [],
   mkJob "c" "t3" "todo" "2024-06-03" [], mkJob "d" "t4" "todo" "2024-06-04" [],
   mkJob "e" "t5" "todo" "2024-06-05" [], mkJob "f" "t6" "todo" "2024-06-06" []]

/-- The dashboard over `sixJobs` with an empty search string. -/
def sixState : AppState := ⟨sixJobs, "dashboard", "", true⟩

/-! ## The claims -/

/-- C1, counterexample to the claim as stated: with six jobs all passing
the empty search string and the dashboard active, the sixth filtered job
is not among the jobs the dashboard renders (`jobs.slice(0, 5)`), so the
set of jobs rendered by the dashboard view is not the whole filtered
set. -/
theorem C1_counterexample :
    (renderCurrentView sixState).1 = RenderedView.dashboard (Dashboard.items (sixJobs.take 5))
    ∧ mkJob "f" "t6" "todo" "2024-06-06" [] ∈ filteredJobs sixState
    ∧ mkJob "f" "t6" "todo" "2024-06-06" [] ∉ sixJobs.take 5 :=
  ⟨rfl, by decide, by decide⟩

/-- C1 (amended): for every search string `raw` and every job collection,
the filtered collection computed before each of the three view renders is
exactly the set of jobs `j` with `raw` empty, or `lower(j.title)`
containing `lower(raw)`, or some tag `t` with `lower(t)` containing
`lower(raw)` (the input handler lowercases the query, making the
comparison case-insensitive in both query and fields); the list view
renders exactly one row per job of that collection.  (The dashboard and
kanban views render subsets of it: the first five, resp. the recognized
statuses.) -/
theorem C1_filter_exact (raw : String) (st : AppState) :
    filteredJobs (searchInput raw st) = st.jobs.filter (claimMatches raw)
    ∧ renderList (filteredJobs (searchInput raw st))
        = (st.jobs.filter (claimMatches raw)).map jobRow := by
  have h : filteredJobs (searchInput raw st) = st.jobs.filter (claimMatches raw) := by
    unfold filteredJobs searchInput
    exact List.filter_congr (fun x _ => jobMatches_jsToLower raw x)
  exact ⟨h, by rw [h]; rfl⟩

/-- C2: a job whose status is not one of the four column keys is *not*
always silently omitted.  A status naming an inherited `Object.prototype`
member — here `"toString"` — makes `columns[job.status]` truthy (the
inherited function), so the guard passes and
`columns[job.status].appendChild(card)` throws a `TypeError`, aborting
the whole kanban render instead of skipping the job. -/
theorem C2_unknown_status_throws :
    renderKanban [mkJob "c" "Odd job" "toString" "2024-06-02" []]
      = Except.error "TypeError: columns[job.status].appendChild is not a function" := rfl

/-- C3: the summary statistics rendered by `renderCurrentView` are
`updateStats` over the full unfiltered collection — total is the number
of all jobs, active counts `in-progress`, completed counts `done`,
pending counts `todo` and `review` — and they are unchanged under any
search filter and any active view. -/
theorem C3_stats_unfiltered (st : AppState) :
    (renderCurrentView st).2 = updateStats st.jobs
    ∧ (renderCurrentView st).2.total = st.jobs.length
    ∧ (renderCurrentView st).2.active
        = (st.jobs.filter (fun j => j.status == "in-progress")).length
    ∧ (renderCurrentView st).2.completed
        = (st.jobs.filter (fun j => j.status == "done")).length
    ∧ (renderCurrentView st).2.pending
        = (st.jobs.filter (fun j => j.status == "todo" || j.status == "review")).length
    ∧ ∀ q v, (renderCurrentView { st with filter := q, view := v }).2
        = (renderCurrentView st).2 :=
  ⟨rfl, rfl, rfl, rfl, rfl, fun _ _ => rfl⟩

/-- C4: after a reload the in-memory collection is the store's full
contents sorted by due date ascending — a permutation of the store, and
pairwise ordered by the parsed date whenever every due date parses (the
order among invalid dates being unspecified); the filtered collection
inherits that order; and the dashboard renders exactly the first five
filtered jobs (all of them if fewer), with the empty-state message
exactly when no job passes the filter. -/
theorem C4_reload_and_dashboard (store : List Job) (st : AppState)
    (hview : st.view = "dashboard")
    (hvalid : ∀ j ∈ store, (parseDate j.dueDate).isSome) :
    (loadJobs store).Perm store
    ∧ (loadJobs store).Pairwise (fun a b => dueKey a ≤ dueKey b)
    ∧ (st.jobs = loadJobs store →
        (filteredJobs st).Pairwise (fun a b => dueKey a ≤ dueKey b))
    ∧ (renderCurrentView st).1 =
        RenderedView.dashboard
          (if filteredJobs st = [] then Dashboard.emptyState
           else Dashboard.items ((filteredJobs st).take 5)) := by
  have hsorted : (loadJobs store).Pairwise (fun a b => dueKey a ≤ dueKey b) :=
    sortByDueDate_pairwise hvalid
  refine ⟨loadJobs_perm store, hsorted, ?_, ?_⟩
  · intro h
    exact List.Pairwise.sublist (List.filter_sublist st.jobs) (h ▸ hsorted)
  · show (if st.view = "dashboard" then
        RenderedView.dashboard (renderRecentActivity (filteredJobs st))
      else if st.view = "kanban" then RenderedView.kanban (renderKanban (filteredJobs st))
      else if st.view = "list" then RenderedView.listView (renderList (filteredJobs st))
      else RenderedView.noView) = _
    rw [if_pos hview]
    unfold renderRecentActivity
    by_cases he : filteredJobs st = []
    · rw [if_pos (by rw [he]; rfl), if_pos he]
    · rw [if_neg (fun hc => he (List.length_eq_zero.mp hc)), if_neg he]

/-- C4 witness: the theorem applied to the concrete two-record store
`sampleStore` and the dashboard state reloaded from it. -/
theorem C4_witness :
    (loadJobs sampleStore).Perm sampleStore
    ∧ (loadJobs sampleStore).Pairwise (fun a b => dueKey a ≤ dueKey b)
    ∧ (filteredJobs sampleDashState).Pairwise (fun a b => dueKey a ≤ dueKey b)
    ∧ (renderCurrentView sampleDashState).1 =
        RenderedView.dashboard
          (if filteredJobs sampleDashState = [] then Dashboard.emptyState
           else Dashboard.items ((filteredJobs sampleDashState).take 5)) := by
  have h := C4_reload_and_dashboard sampleStore sampleDashState rfl (by decide)
  exact ⟨h.1, h.2.1, h.2.2.1 rfl, h.2.2.2⟩

/-- C5: deleting an id from the store leaves no record with that id in a
subsequent `getAll`, and deleting an id no stored record has changes
nothing (and does not fail — `deleteJob` is total). -/
theorem C5_delete_then_getAll (store : List Job) (jid : String) :
    (∀ j ∈ getAllJobs (deleteJob store jid), j.id ≠ jid)
    ∧ ((∀ j ∈ store, j.id ≠ jid) → deleteJob store jid = store) := by
  constructor
  · intro j hj
    have := List.of_mem_filter hj
    simpa using this
  · intro h
    exact List.filter_eq_self.mpr (fun a ha => by simpa using h a ha)

/-- C5 witness: deleting the absent id `"zzz"` from the concrete
`sampleStore` leaves it unchanged. -/
theorem C5_witness : deleteJob sampleStore "zzz" = sampleStore :=
  (C5_delete_then_getAll sampleStore "zzz").2 (by decide)

/-- C6, counterexample to the claim as stated: the kanban drop handler
mutates a job record and writes it to the store (the store contents
change), yet its trace contains no reload — it patches the in-memory
record in place instead of re-reading the store. -/
theorem C6_counterexample :
    (dropHandler "a" "done" dropState dropStore).2.1 ≠ dropStore
    ∧ StoreEvent.reload ∉ (dropHandler "a" "done" dropState dropStore).2.2 := by
  decide

/-- C6 (amended): the form-submit and delete handlers follow their store
write with a full reload; the drag-drop status change writes the updated
record to the store but updates the in-memory record in place, without a
reload; in all three cases, if the in-memory collection held exactly the
store's records before the action (ids unique, as the keyed store
guarantees), it holds exactly the store's records after it. -/
theorem C6_state_store_consistency (form : JobForm) (freshId now jid ns : String)
    (st : AppState) (store : List Job)
    (hperm : st.jobs.Perm store) (hnd : (store.map Job.id).Nodup) :
    ((submitJobForm form freshId now st store).1.jobs).Perm
        (submitJobForm form freshId now st store).2.1
    ∧ ((deleteHandler jid st store).1.jobs).Perm (deleteHandler jid st store).2.1
    ∧ ((dropHandler jid ns st store).1.jobs).Perm (dropHandler jid ns st store).2.1 := by
  refine ⟨?_, loadJobs_perm _, dropHandler_perm hperm hnd⟩
  unfold submitJobForm
  by_cases ht : form.title = ""
  · rw [if_pos ht]
    exact hperm
  · rw [if_neg ht]
    exact loadJobs_perm _

/-- C6 witness: the consistency theorem applied to the concrete
single-job kanban scenario. -/
theorem C6_witness :
    ((submitJobForm ⟨"", "New", "", "todo", "low", "2024-07-01", ""⟩ "fresh"
        "2024-07-01T00:00:00.000Z" dropState dropStore).1.jobs).Perm
      (submitJobForm ⟨"", "New", "", "todo", "low", "2024-07-01", ""⟩ "fresh"
        "2024-07-01T00:00:00.000Z" dropState dropStore).2.1
    ∧ ((deleteHandler "a" dropState dropStore).1.jobs).Perm
        (deleteHandler "a" dropState dropStore).2.1
    ∧ ((dropHandler "a" "done" dropState dropStore).1.jobs).Perm
        (dropHandler "a" "done" dropState dropStore).2.1 :=
  C6_state_store_consistency ⟨"", "New", "", "todo", "low", "2024-07-01", ""⟩ "fresh"
    "2024-07-01T00:00:00.000Z" "a" "done" dropState dropStore
    (List.Perm.refl _) (by decide)

/-- C7, counterexample to the claim as stated: the record the drag-drop
status change upserts still carries the `updatedAt` stamp of the earlier
save that created it — the drop path never touches the field (it takes no
timestamp at all), while its status did change, so a drag-drop save does
not set `updatedAt` to the timestamp of that save. -/
theorem C7_counterexample :
    (dropHandler "a" "done" dropState dropStore).2.2
      = [StoreEvent.put { dropJob with status := "done" }]
    ∧ ({ dropJob with status := "done" } : Job).updatedAt = "2024-01-01T00:00:00.000Z"
    ∧ ({ dropJob with status := "done" } : Job).status ≠ dropJob.status :=
  ⟨rfl, rfl, by decide⟩

/-- C7 (amended): a form-submit save (create or edit) sets the saved
record's `updatedAt` to the timestamp of that save; the drag-drop status
change upserts the record with only `status` replaced, its `updatedAt`
left exactly as it was. -/
theorem C7_updatedAt_on_save (form : JobForm) (freshId now jid ns : String)
    (st : AppState) (store : List Job) :
    (∀ j, StoreEvent.put j ∈ (handleSaveJob form freshId now st store).2.2 →
        j.updatedAt = now)
    ∧ (∀ j1, StoreEvent.put j1 ∈ (dropHandler jid ns st store).2.2 →
        ∃ j, j ∈ st.jobs ∧ j1 = { j with status := ns }
          ∧ j1.updatedAt = j.updatedAt) := by
  constructor
  · intro j hj
    simp only [handleSaveJob, List.mem_cons, List.not_mem_nil, or_false] at hj
    rcases hj with h | h
    · injection h with h
      rw [h]
    · exact StoreEvent.noConfusion h
  · intro j1 hj1
    rcases hfind : st.jobs.findIdx? (fun x => x.id == jid) with _ | i
    · simp only [dropHandler, hfind] at hj1
      exact absurd hj1 (List.not_mem_nil _)
    · rcases hget : st.jobs[i]? with _ | j
      · simp only [dropHandler, hfind, hget] at hj1
        exact absurd hj1 (List.not_mem_nil _)
      · by_cases hs : (j.status == ns) = true
        · simp only [dropHandler, hfind, hget, if_pos hs] at hj1
          exact absurd hj1 (List.not_mem_nil _)
        · simp only [dropHandler, hfind, hget, if_neg hs] at hj1
          have h := List.mem_singleton.mp hj1
          injection h with h
          exact ⟨j, List.getElem?_mem hget, h, by rw [h]⟩

/-- C7 witness: the drag-drop conjunct applied to the concrete single-job
drop, with the written record exhibited. -/
theorem C7_witness :
    ∃ j, j ∈ dropState.jobs
      ∧ ({ dropJob with status := "done" } : Job) = { j with status := "done" }
      ∧ ({ dropJob with status := "done" } : Job).updatedAt = j.updatedAt :=
  (C7_updatedAt_on_save ⟨"", "x", "", "todo", "low", "2024-07-01", ""⟩ "f"
    "2024-07-02T00:00:00.000Z" "a" "done" dropState dropStore).2
    { dropJob with status := "done" } (by decide)

/-- C8: a submitted form with an empty required title is blocked by the
(spec-modelled) required-field validation — state and store are untouched
and no store operation happens; a submission with a non-empty title runs
`handleSaveJob`, which constructs the record and upserts it. -/
theorem C8_required_validation (form : JobForm) (freshId now : String)
    (st : AppState) (store : List Job) :
    (form.title = "" → submitJobForm form freshId now st store = (st, store, []))
    ∧ (form.title ≠ "" →
        submitJobForm form freshId now st store
          = handleSaveJob form freshId now st store) := by
  constructor
  · intro h
    unfold submitJobForm
    rw [if_pos h]
  · intro h
    unfold submitJobForm
    rw [if_neg h]

/-- C8 witness: a concrete empty-title submission writes nothing. -/
theorem C8_witness :
    submitJobForm ⟨"", "", "d", "todo", "low", "2024-07-01", ""⟩ "f"
      "2024-07-02T00:00:00.000Z" dropState dropStore = (dropState, dropStore, []) :=
  (C8_required_validation ⟨"", "", "d", "todo", "low", "2024-07-01", ""⟩ "f"
    "2024-07-02T00:00:00.000Z" dropState dropStore).1 rfl

/-- C9: on a kanban drop whose target status differs from the dragged
job's status, exactly that job's `status` field is replaced (every other
index of the collection is untouched, and the record keeps all its other
fields) followed by an upsert of exactly that record; when the target
status equals the job's status, nothing changes and nothing is written. -/
theorem C9_drop_status_change (jid ns : String) (st : AppState) (store : List Job)
    (i : Nat) (j : Job)
    (hfind : st.jobs.findIdx? (fun x => x.id == jid) = some i)
    (hget : st.jobs[i]? = some j) :
    (j.status ≠ ns →
      dropHandler jid ns st store =
        ({ st with jobs := st.jobs.set i { j with status := ns } },
          addJob store { j with status := ns },
          [StoreEvent.put { j with status := ns }])
      ∧ ∀ k, k ≠ i → (st.jobs.set i { j with status := ns })[k]? = st.jobs[k]?)
    ∧ (j.status = ns → dropHandler jid ns st store = (st, store, [])) := by
  constructor
  · intro hne
    have hs : ¬(j.status == ns) = true := by simpa using hne
    constructor
    · simp only [dropHandler, hfind, hget, if_neg hs]
    · intro k hk
      exact List.getElem?_set_ne (Ne.symm hk)
  · intro he
    have hs : (j.status == ns) = true := beq_iff_eq.mpr he
    simp only [dropHandler, hfind, hget, if_pos hs]

/-- C9 witness: the status-differs branch at the concrete single-job
kanban scenario. -/
theorem C9_witness :
    dropHandler "a" "done" dropState dropStore =
      ({ dropState with jobs := dropState.jobs.set 0 { dropJob with status := "done" } },
        addJob dropStore { dropJob with status := "done" },
        [StoreEvent.put { dropJob with status := "done" }]) :=
  ((C9_drop_status_change "a" "done" dropState dropStore 0 dropJob rfl rfl).1
    (by decide)).1

/-- C10: a drop whose dragged id matches no job in the in-memory
collection is a complete no-op — same state, same store, no store
operation. -/
theorem C10_drop_unknown_id (jid ns : String) (st : AppState) (store : List Job)
    (h : ∀ j ∈ st.jobs, j.id ≠ jid) :
    dropHandler jid ns st store = (st, store, []) := by
  have hfind : st.jobs.findIdx? (fun x => x.id == jid) = none :=
    List.findIdx?_eq_none_iff.mpr (fun x hx => by simpa using h x hx)
  simp only [dropHandler, hfind]

/-- C10 witness: dropping an unknown id on the concrete scenario changes
nothing. -/
theorem C10_witness :
    dropHandler "zzz" "done" dropState dropStore = (dropState, dropStore, []) :=
  C10_drop_unknown_id "zzz" "done" dropState dropStore (by decide)

end TaskFlow
